import Mathlib

/-!
Shallow embedding of `src/python/utils/elo_model.py` (class `EloModel`).

Modelling conventions:
* Real-valued quantities of the Python code are `ℝ`; goal counts, rest days
  and injury counts are `ℤ`; team identifiers are opaque keys, modelled as `ℕ`.
* The rating dictionary `self.ratings` is an association list `Store` with
  Python-`dict` semantics: assignment overwrites the (unique) existing entry
  in place or appends a fresh one at the end; lookup returns the first match.
* A missing field of a match record is `Option.none`; Python's subscript
  access `game['f']` (which raises `KeyError` when `f` is absent) becomes a
  monadic bind in `Option`, so a raised `KeyError` is the result `none` and
  aborts the computation with no state change, as an uncaught exception does.
  `game.get('f', d)` becomes `Option.getD`.
* The module defines `predict_goals`, `predict_winner`, `fit`, `evaluate` and
  `get_rankings` twice; in Python the later definition silently overrides the
  earlier one, so the second set (lines 259-353 of the source) is the
  behaviour of the class and is what is embedded here.
* Outcome codes and the `mov_method` configuration value are loosely-typed
  scalars in Python, compared against the literals `RW`, `W`, `1`, `OTW`,
  `OTL` resp. `linear`/`logarithmic`; they are embedded as inductive types
  enumerating the distinguished values plus a catch-all constructor for
  every other raw value.
-/

/-- Team identifiers are opaque dictionary keys; modelled as `ℕ`. -/
abbrev Team := ℕ

/-- Raw outcome values consumed from the data. The source compares an outcome
with loose equality against the strings `RW`, `W`, `OTW`, `OTL` and the
number `1`; `other k` stands for any raw value outside that recognized set. -/
inductive Outcome where
  | rw
  | w
  | one
  | otw
  | otl
  | other (k : ℕ)
deriving DecidableEq

/-- Raw values of the `mov_method` configuration option. The source compares
the configured value against the string `linear` (with default
`logarithmic`); `other k` stands for any further raw string. -/
inductive MovMethod where
  | linear
  | logarithmic
  | other (k : ℕ)
deriving DecidableEq

/-- Division tags: the source maps the strings `D1`/`D2`/`D3` to rating
offsets and any other tag to the baseline. -/
inductive Division where
  | d1
  | d2
  | d3
  | other (k : ℕ)
deriving DecidableEq

/-- Hyperparameter dictionary `params` of `EloModel.__init__`. Each recognized
option is optional, mirroring `self.params.get(key, default)` lookups. -/
structure Params where
  k_factor : Option ℝ := none
  home_advantage : Option ℝ := none
  initial_rating : Option ℝ := none
  mov_multiplier : Option ℝ := none
  mov_method : Option MovMethod := none
  season_carryover : Option ℝ := none
  ot_win_multiplier : Option ℝ := none
  rest_advantage_per_day : Option ℝ := none
  b2b_penalty : Option ℝ := none

/-- One match record (a row of `games_df`). Mandatory fields of the spec are
`home_team, away_team, home_goals, away_goals`; every field can be absent in
the raw data, hence `Option` throughout. -/
structure Game where
  home_team : Option Team := none
  away_team : Option Team := none
  home_goals : Option ℤ := none
  away_goals : Option ℤ := none
  home_rest : Option ℤ := none
  away_rest : Option ℤ := none
  away_travel_dist : Option ℝ := none
  travel_distance : Option ℝ := none
  home_injuries : Option ℤ := none
  away_injuries : Option ℤ := none
  injuries : Option ℤ := none
  home_outcome : Option Outcome := none
  home_win : Option Bool := none

/-- The rating dictionary `self.ratings`, as an insertion-ordered association
list with unique keys (Python `dict` semantics). -/
abbrev Store := List (Team × ℝ)

/-- Dictionary lookup: first entry with the given key, `none` if absent. -/
def getR : Store → Team → Option ℝ
  | [], _ => none
  | a :: rest, t => if a.1 = t then some a.2 else getR rest t

/-- Dictionary assignment `self.ratings[t] = v`: overwrite the existing entry
for `t` in place, or append a fresh entry at the end. -/
def setR : Store → Team → ℝ → Store
  | [], t, v => [(t, v)]
  | a :: rest, t, v => if a.1 = t then (t, v) :: rest else a :: setR rest t v

/-- Sum of all ratings currently in the store. -/
def storeSum (s : Store) : ℝ := (s.map fun a => a.2).sum

/-- One entry of `self.rating_history` (post-update ratings of both sides). -/
structure HistoryRecord where
  home_team : Team
  away_team : Team
  home_rating : ℝ
  away_rating : ℝ

/-- Source line 107/108 (and 159/160, 194/195, 262/263, 292/293):
`self.ratings.get(team, 1500)` — the base rating used for a team by the
update and prediction paths, with the hard-coded literal default `1500`. -/
noncomputable def base_rating (s : Store) (t : Team) : ℝ :=
  (getR s t).getD 1500

/-- Rating offset per division tier: `division_ratings.get(div, initial)`
with `D1 -> initial + 100`, `D2 -> initial`, `D3 -> initial - 100`. -/
noncomputable def division_rating (initial : ℝ) : Division → ℝ
  | .d1 => initial + 100
  | .d2 => initial
  | .d3 => initial - 100
  | .other _ => initial

/-- Loop body of `initialize_ratings`: walk the team list with its index `i`,
taking the division at position `i` when a division list is supplied and long
enough, and assign the corresponding rating. -/
noncomputable def init_ratings_from (p : Params) (divisions : Option (List Division)) :
    Store → ℕ → List Team → Store
  | s, _, [] => s
  | s, i, team :: rest =>
    let initial := p.initial_rating.getD 1500
    let r :=
      match divisions with
      | some ds => if h : i < ds.length then division_rating initial (ds.get ⟨i, h⟩) else initial
      | none => initial
    init_ratings_from p divisions (setR s team r) (i + 1) rest

/-- Source `initialize_ratings(teams, divisions=None)`, embedded under the
shortened name `init_ratings`: seed each team's rating from `initial_rating`
(default `1500`), offset by division tier when divisions are supplied. -/
noncomputable def init_ratings (p : Params) (teams : List Team)
    (divisions : Option (List Division)) (s : Store) : Store :=
  init_ratings_from p divisions s 0 teams

/-- Source `calculate_expected_score`: `1 / (1 + 10 ** ((opp - team) / 400))`. -/
noncomputable def calculate_expected_score (team_elo opponent_elo : ℝ) : ℝ :=
  1 / (1 + (10 : ℝ) ^ ((opponent_elo - team_elo) / 400))

/-- Source `calculate_mov_multiplier`: weight `0` disables the feature;
`linear` gives `1 + |diff| * mov`; anything else (the default `logarithmic`
included) gives `1 + ln(|diff| + 1) * mov`. -/
noncomputable def calculate_mov_multiplier (p : Params) (goal_diff : ℤ) : ℝ :=
  let mov := p.mov_multiplier.getD 0
  if mov = 0 then 1.0
  else if p.mov_method.getD .logarithmic = .linear then 1 + (|goal_diff| : ℝ) * mov
  else 1 + Real.log ((|goal_diff| : ℝ) + 1) * mov

/-- Source `get_actual_score`: win codes map to `1.0`, `OTW` to the
configured `ot_win_multiplier` (default `0.75`), `OTL` to its complement,
everything else to `0.0`. -/
noncomputable def get_actual_score (p : Params) (outcome : Outcome) : ℝ :=
  if outcome = Outcome.rw ∨ outcome = Outcome.w ∨ outcome = Outcome.one then 1.0
  else if outcome = Outcome.otw then p.ot_win_multiplier.getD 0.75
  else if outcome = Outcome.otl then 1 - p.ot_win_multiplier.getD 0.75
  else 0.0

/-- Source `adjust_for_context`: additive home advantage, back-to-back
penalty for `rest_time <= 1`, travel fatigue `(dist / 1000) * 15` for a
travelling away side, and `25` points per injury. -/
noncomputable def adjust_for_context (p : Params) (team_elo : ℝ) (home : Bool)
    (rest_time : ℤ) (travel_dist : ℝ) (injuries : ℤ) : ℝ :=
  let adjusted := team_elo
  let adjusted := if home then adjusted + p.home_advantage.getD 0 else adjusted
  let adjusted := if rest_time ≤ 1 then adjusted - p.b2b_penalty.getD 0 else adjusted
  let adjusted := if home = false ∧ 0 < travel_dist then adjusted - travel_dist / 1000 * 15 else adjusted
  adjusted - (injuries : ℝ) * 25

/-- Steps 1-4 of the update recurrence as performed by `update_ratings`
(source lines 106-126): base ratings with default `1500`, context values with
the fallback chains `away_travel_dist -> travel_distance -> 0` and
`home_injuries/away_injuries -> injuries -> 0`, contextual adjustment, the
rest-differential term, then the expected score. -/
noncomputable def engine_home_expected (p : Params) (s : Store)
    (home_team away_team : Team) (g : Game) : ℝ :=
  let home_elo := base_rating s home_team
  let away_elo := base_rating s away_team
  let home_rest := g.home_rest.getD 2
  let away_rest := g.away_rest.getD 2
  let away_travel := g.away_travel_dist.getD (g.travel_distance.getD 0)
  let home_injuries := g.home_injuries.getD (g.injuries.getD 0)
  let away_injuries := g.away_injuries.getD (g.injuries.getD 0)
  let home_adj := adjust_for_context p home_elo true home_rest 0 home_injuries
  let away_adj := adjust_for_context p away_elo false away_rest away_travel away_injuries
  let rest_diff := home_rest - away_rest
  let home_adj := home_adj + (rest_diff : ℝ) * p.rest_advantage_per_day.getD 0
  calculate_expected_score home_adj away_adj

/-- Steps 1-4 as performed by the effective (second) `predict_winner` and
`predict_goals` (source lines 262-279 and 292-307): identical to
`engine_home_expected` except that the away travel distance is
`game.get('away_travel_dist', 0)` (no `travel_distance` fallback) and the
injury counts are `game.get('home_injuries', 0)` / `game.get('away_injuries', 0)`
(no shared `injuries` fallback). -/
noncomputable def predictor_home_expected (p : Params) (s : Store)
    (home_team away_team : Team) (g : Game) : ℝ :=
  let home_elo := base_rating s home_team
  let away_elo := base_rating s away_team
  let home_rest := g.home_rest.getD 2
  let away_rest := g.away_rest.getD 2
  let away_travel := g.away_travel_dist.getD 0
  let home_injuries := g.home_injuries.getD 0
  let away_injuries := g.away_injuries.getD 0
  let home_adj := adjust_for_context p home_elo true home_rest 0 home_injuries
  let away_adj := adjust_for_context p away_elo false away_rest away_travel away_injuries
  let rest_diff := home_rest - away_rest
  let home_adj := home_adj + (rest_diff : ℝ) * p.rest_advantage_per_day.getD 0
  calculate_expected_score home_adj away_adj

/-- Outcome dispatch of `update_ratings` (source lines 129-134): prefer an
explicit `home_outcome`, then a `home_win` flag, else compare the goals —
each of the last paths demanding its fields (`KeyError` = `none`). -/
noncomputable def home_actual_of (p : Params) (g : Game) : Option ℝ :=
  match g.home_outcome with
  | some oc => some (get_actual_score p oc)
  | none =>
    match g.home_win with
    | some hw => some (if hw then 1.0 else 0.0)
    | none =>
      match g.home_goals, g.away_goals with
      | some hg, some ag => some (if ag < hg then 1.0 else 0.0)
      | _, _ => none

/-- Source `update_ratings(game)`: fold one match into the store and append a
history record. Mandatory subscript accesses are monadic binds; a missing
mandatory field aborts with `none` before any store write or history append,
exactly as the Python `KeyError` is raised before the first mutation. -/
noncomputable def update_ratings (p : Params) (s : Store) (hist : List HistoryRecord)
    (g : Game) : Option (Store × List HistoryRecord) := do
  let home_team ← g.home_team
  let away_team ← g.away_team
  let home_elo := base_rating s home_team
  let away_elo := base_rating s away_team
  let home_expected := engine_home_expected p s home_team away_team g
  let home_actual ← home_actual_of p g
  let hg ← g.home_goals
  let ag ← g.away_goals
  let goal_diff := hg - ag
  let mov_mult := calculate_mov_multiplier p goal_diff
  let k := p.k_factor.getD 32 * mov_mult
  let s1 := setR s home_team (home_elo + k * (home_actual - home_expected))
  let s2 := setR s1 away_team (away_elo + k * ((1 - home_actual) - (1 - home_expected)))
  some (s2, hist ++ [⟨home_team, away_team, (getR s2 home_team).getD 0, (getR s2 away_team).getD 0⟩])

/-- The training loop shared by both `fit` definitions (source lines 229-230
and 325-326): fold `update_ratings` over the ordered match list; an uncaught
`KeyError` propagates to the caller. -/
noncomputable def update_loop (p : Params) :
    Store × List HistoryRecord → List Game → Option (Store × List HistoryRecord)
  | st, [] => some st
  | st, g :: rest => do
    let st2 ← update_ratings p st.1 st.2 g
    update_loop p st2 rest

/-- Effective (second) `predict_goals` (source lines 259-288): read-only
steps 1-4 with the predictor defaults, then the fixed linear goal mapping. -/
noncomputable def predict_goals (p : Params) (s : Store) (g : Game) : Option (ℝ × ℝ) := do
  let home_team ← g.home_team
  let away_team ← g.away_team
  let home_win_prob := predictor_home_expected p s home_team away_team g
  let expected_diff := (home_win_prob - 0.5) * 12
  some (3.0 + expected_diff / 2, 3.0 - expected_diff / 2)

/-- Effective (second) `predict_winner` (source lines 290-312): the side with
probability above `0.5` together with that side's probability. -/
noncomputable def predict_winner (p : Params) (s : Store) (g : Game) : Option (Team × ℝ) := do
  let home_team ← g.home_team
  let away_team ← g.away_team
  let home_win_prob := predictor_home_expected p s home_team away_team g
  if home_win_prob > 0.5 then some (home_team, home_win_prob)
  else some (away_team, 1 - home_win_prob)

/-- Aggregate error metrics returned by `evaluate`. -/
structure Metrics where
  rmse : ℝ
  mae : ℝ
  r2 : ℝ

/-- Collection loop of `evaluate` (source lines 333-336): per match, the home
goal prediction and the observed `game['home_goals']`, both fallible. -/
noncomputable def eval_collect (p : Params) (s : Store) : List Game → Option (List ℝ × List ℤ)
  | [] => some ([], [])
  | g :: rest => do
    let pred ← predict_goals p s g
    let hg ← g.home_goals
    let tail ← eval_collect p s rest
    some (pred.1 :: tail.1, hg :: tail.2)

/-- Root-mean-square error, `mean_squared_error(actuals, preds, squared=False)`. -/
noncomputable def rmse_of (actuals : List ℤ) (predictions : List ℝ) : ℝ :=
  Real.sqrt ((List.zipWith (fun a q => ((a : ℝ) - q) ^ 2) actuals predictions).sum / actuals.length)

/-- Mean absolute error, `mean_absolute_error(actuals, preds)`. -/
noncomputable def mae_of (actuals : List ℤ) (predictions : List ℝ) : ℝ :=
  (List.zipWith (fun a q => |(a : ℝ) - q|) actuals predictions).sum / actuals.length

/-- Coefficient of determination `r2_score(actuals, preds)`:
`1 - ss_res / ss_tot`. Only invoked by `evaluate` when the observed values
are not all identical. -/
noncomputable def r2_of (actuals : List ℤ) (predictions : List ℝ) : ℝ :=
  let mean := (actuals.map fun a => (a : ℝ)).sum / actuals.length
  let ss_res := (List.zipWith (fun a q => ((a : ℝ) - q) ^ 2) actuals predictions).sum
  let ss_tot := (actuals.map fun a => ((a : ℝ) - mean) ^ 2).sum
  1 - ss_res / ss_tot

/-- Effective (second) `evaluate` (source lines 328-342): collect predictions
and observations, then report `{rmse, mae, r2}`; `r2_score` is guarded by
`len(set(actuals)) > 1` and replaced by `0.0` for a zero-variance observed
set. The sklearn metric calls reject empty inputs, hence the emptiness
guard. -/
noncomputable def evaluate (p : Params) (s : Store) (games : List Game) : Option Metrics := do
  let col ← eval_collect p s games
  if col.2.isEmpty then none
  else
    some ⟨rmse_of col.2 col.1, mae_of col.2 col.1,
      if 1 < col.2.dedup.length then r2_of col.2 col.1 else 0.0⟩

/-- Effective (second) `get_rankings` (source lines 344-349):
`sorted(self.ratings.items(), key=rating, reverse=True)` — a stable sort,
descending by rating — truncated to `top_n` only when `top_n` is truthy
(so `top_n=0` and `top_n=None` both return the full list). -/
noncomputable def get_rankings (s : Store) (top_n : Option ℕ) : List (Team × ℝ) :=
  let sorted_ratings := s.mergeSort fun x y => decide (y.2 ≤ x.2)
  match top_n with
  | some n => if n ≠ 0 then sorted_ratings.take n else sorted_ratings
  | none => sorted_ratings

/-! ## Concrete configurations, stores and match records used by witnesses
and counterexamples -/

/-- Empty configuration: every option left at its call-site default. -/
def defaultParams : Params := {}

/-- Configuration with margin-of-victory weight `1` and the method left at
its default (logarithmic). -/
def movParams : Params := { mov_multiplier := some 1 }

/-- Configuration whose baseline rating is `1600` rather than `1500`. -/
def p1600 : Params := { initial_rating := some 1600 }

/-- Match: team `0` hosts team `1` and wins `1:0`; no optional context. -/
def g01 : Game := { home_team := some 0, away_team := some 1, home_goals := some 1, away_goals := some 0 }

/-- Match with a goalless draw whose away travel is supplied only through the
legacy `travel_distance` field. -/
def gTravel : Game :=
  { home_team := some 0, away_team := some 1, home_goals := some 0, away_goals := some 0,
    travel_distance := some 1000 }

/-- Match whose away travel is supplied through `away_travel_dist` and whose
legacy fields are absent. -/
def gAway : Game := { home_team := some 0, away_team := some 1, away_travel_dist := some 500 }

/-- Malformed match record: the mandatory `home_team` field is missing. -/
def gNoHome : Game := { away_team := some 1, home_goals := some 1, away_goals := some 0 }

/-- Match with three observed home goals, used by the evaluation witness. -/
def gGoal3 : Game :=
  { home_team := some 0, away_team := some 1, home_goals := some 3, away_goals := some 2 }

/-- Store holding the two teams of `g01` at the baseline rating. -/
def s2teams : Store := [(0, 1500), (1, 1500)]

/-- Store with two differently rated teams, used by the ranking witness. -/
def sRank : Store := [(0, 1500), (1, 1600)]

/-- A match record whose mandatory fields are present, whose two teams are
distinct, and whose teams are both already present in the given store — the
situation `fit` establishes for every training match before its update loop
runs. -/
def seeded_game (s : Store) (g : Game) : Prop :=
  ∃ home_team away_team hg ag,
    g.home_team = some home_team ∧ g.away_team = some away_team ∧
    g.home_goals = some hg ∧ g.away_goals = some ag ∧
    (getR s home_team).isSome = true ∧ (getR s away_team).isSome = true ∧
    home_team ≠ away_team

/-! ## Helper lemmas -/

/-- Equal adjusted ratings give expected score one half. -/
theorem expected_score_self (r : ℝ) : calculate_expected_score r r = 1 / 2 := by
  unfold calculate_expected_score
  rw [sub_self, zero_div, Real.rpow_zero]
  norm_num

/-- A strictly higher adjusted rating gives an expected score above one half. -/
theorem expected_score_half_lt (a b : ℝ) (h : b < a) : 1 / 2 < calculate_expected_score a b := by
  unfold calculate_expected_score
  have ht : (0 : ℝ) < (10 : ℝ) ^ ((b - a) / 400) := Real.rpow_pos_of_pos (by norm_num) _
  have hlt : (10 : ℝ) ^ ((b - a) / 400) < 1 :=
    Real.rpow_lt_one_of_one_lt_of_neg (by norm_num)
      (div_neg_of_neg_of_pos (by linarith) (by norm_num))
  rw [lt_div_iff₀ (by linarith)]
  linarith

/-! ## C6 -/

/-- C6: for all rating scalars `a` and `b`, the expected-score function
satisfies `expected(a,b) + expected(b,a) = 1` exactly over the reals, and its
value lies strictly between `0` and `1`. -/
theorem expected_score_complement_and_bounds (a b : ℝ) :
    calculate_expected_score a b + calculate_expected_score b a = 1 ∧
    0 < calculate_expected_score a b ∧ calculate_expected_score a b < 1 := by
  have ht : (0 : ℝ) < (10 : ℝ) ^ ((b - a) / 400) := Real.rpow_pos_of_pos (by norm_num) _
  have hu : (10 : ℝ) ^ ((a - b) / 400) = ((10 : ℝ) ^ ((b - a) / 400))⁻¹ := by
    rw [show (a - b) / 400 = -((b - a) / 400) by ring]
    exact Real.rpow_neg (by norm_num) _
  unfold calculate_expected_score
  rw [hu]
  have h2 : (10 : ℝ) ^ ((b - a) / 400) ≠ 0 := ne_of_gt ht
  have h3 : (1 : ℝ) + (10 : ℝ) ^ ((b - a) / 400) ≠ 0 := by positivity
  refine ⟨?_, ?_, ?_⟩
  · field_simp
    ring
  · positivity
  · rw [div_lt_one (by positivity)]
    linarith

/-! ## C5 -/

/-- C5: the margin-of-victory multiplier is exactly `1.0` when the configured
weight is `0`; otherwise it is `1 + |diff| * weight` in linear mode and
`1 + ln(|diff| + 1) * weight` in logarithmic mode (the default); and it is at
least `1.0` for every non-negative weight. -/
theorem mov_multiplier_spec (p : Params) (d : ℤ) :
    (p.mov_multiplier.getD 0 = 0 → calculate_mov_multiplier p d = 1.0) ∧
    (p.mov_multiplier.getD 0 ≠ 0 → p.mov_method.getD .logarithmic = .linear →
      calculate_mov_multiplier p d = 1 + (|d| : ℝ) * p.mov_multiplier.getD 0) ∧
    (p.mov_multiplier.getD 0 ≠ 0 → p.mov_method.getD .logarithmic ≠ .linear →
      calculate_mov_multiplier p d = 1 + Real.log ((|d| : ℝ) + 1) * p.mov_multiplier.getD 0) ∧
    (0 ≤ p.mov_multiplier.getD 0 → 1 ≤ calculate_mov_multiplier p d) := by
  refine ⟨?_, ?_, ?_, ?_⟩
  · intro h
    simp [calculate_mov_multiplier, h]
  · intro h hm
    simp [calculate_mov_multiplier, h, hm]
  · intro h hm
    simp [calculate_mov_multiplier, h, hm]
  · intro h
    by_cases h0 : p.mov_multiplier.getD 0 = 0
    · simp [calculate_mov_multiplier, h0]
      norm_num
    · by_cases hm : p.mov_method.getD .logarithmic = .linear
      · simp [calculate_mov_multiplier, h0, hm]
        have hd : (0 : ℝ) ≤ (|d| : ℝ) := by positivity
        nlinarith
      · simp [calculate_mov_multiplier, h0, hm]
        have hl : (0 : ℝ) ≤ Real.log ((|d| : ℝ) + 1) :=
          Real.log_nonneg (le_add_of_nonneg_left (abs_nonneg _))
        nlinarith

/-- Witness for C5 at the concrete weight `1`, default method and goal
differential `2`. -/
theorem mov_multiplier_spec_witness :
    calculate_mov_multiplier movParams 2 = 1 + Real.log ((|(2 : ℤ)| : ℝ) + 1) * movParams.mov_multiplier.getD 0 ∧
    1 ≤ calculate_mov_multiplier movParams 2 :=
  ⟨(mov_multiplier_spec movParams 2).2.2.1 (by norm_num [movParams]) (by decide),
    (mov_multiplier_spec movParams 2).2.2.2 (by norm_num [movParams])⟩

/-! ## C7 -/

/-- C7: the outcome scorer maps each recognized win code to `1.0`, an
overtime win to the configured `ot_win_multiplier` (default `0.75`), an
overtime loss to its complement, and every unrecognized value to `0.0`; the
overtime scores sum to `1` for every configuration. -/
theorem actual_score_spec (p : Params) (o : Outcome)
    (h : o ≠ Outcome.rw ∧ o ≠ Outcome.w ∧ o ≠ Outcome.one ∧ o ≠ Outcome.otw ∧ o ≠ Outcome.otl) :
    get_actual_score p Outcome.rw = 1.0 ∧
    get_actual_score p Outcome.w = 1.0 ∧
    get_actual_score p Outcome.one = 1.0 ∧
    get_actual_score p Outcome.otw = p.ot_win_multiplier.getD 0.75 ∧
    get_actual_score p Outcome.otl = 1 - p.ot_win_multiplier.getD 0.75 ∧
    get_actual_score p o = 0.0 ∧
    get_actual_score p Outcome.otw + get_actual_score p Outcome.otl = 1 := by
  obtain ⟨h1, h2, h3, h4, h5⟩ := h
  refine ⟨by simp [get_actual_score], by simp [get_actual_score], by simp [get_actual_score],
    by simp [get_actual_score], by simp [get_actual_score], ?_, ?_⟩
  · simp [get_actual_score, h1, h2, h3, h4, h5]
  · simp [get_actual_score]

/-- Witness for C7 with the empty configuration and an unrecognized raw
outcome value. -/
theorem actual_score_spec_witness :
    get_actual_score defaultParams Outcome.rw = 1.0 ∧
    get_actual_score defaultParams Outcome.w = 1.0 ∧
    get_actual_score defaultParams Outcome.one = 1.0 ∧
    get_actual_score defaultParams Outcome.otw = defaultParams.ot_win_multiplier.getD 0.75 ∧
    get_actual_score defaultParams Outcome.otl = 1 - defaultParams.ot_win_multiplier.getD 0.75 ∧
    get_actual_score defaultParams (Outcome.other 7) = 0.0 ∧
    get_actual_score defaultParams Outcome.otw + get_actual_score defaultParams Outcome.otl = 1 :=
  actual_score_spec defaultParams (Outcome.other 7) (by refine ⟨?_, ?_, ?_, ?_, ?_⟩ <;> simp)

/-! ## C1 -/

/-- C1 counterexample: with `initial_rating = 1600`, an unseen team is
defaulted to the hard-coded `1500`, not to the configured baseline, on the
update path — training initialization, by contrast, does use the configured
baseline. After team `0` (unseen, defaulted) wins `1:0` over team `1`
(unseen, defaulted) its stored rating is `1500 + 32 * (1 - 1/2) = 1516`,
whereas a default of `initial_rating` would have produced
`1600 + 32 * (1 - 1/2) = 1616`. -/
theorem default_rating_not_configured_baseline :
    base_rating [] 0 = 1500 ∧
    base_rating [] 0 ≠ p1600.initial_rating.getD 1500 ∧
    init_ratings p1600 [0] none [] = [(0, 1600)] ∧
    update_ratings p1600 [] [] g01 = some ([(0, 1516), (1, 1484)], [⟨0, 1, 1516, 1484⟩]) ∧
    (1516 : ℝ) ≠ p1600.initial_rating.getD 1500 + p1600.k_factor.getD 32 * (1 - 1 / 2) := by
  have hE : engine_home_expected p1600 [] 0 1 g01 = 1 / 2 := by
    simp [engine_home_expected, base_rating, getR, adjust_for_context, p1600, g01]
    norm_num [expected_score_self]
  have hA : home_actual_of p1600 g01 = some 1.0 := by
    simp [home_actual_of, g01]
  refine ⟨by simp [base_rating, getR], by simp [base_rating, getR, p1600], ?_, ?_, by simp [p1600]; norm_num⟩
  · simp [init_ratings, init_ratings_from, p1600, setR]
  · have hht : g01.home_team = some 0 := rfl
    have haw : g01.away_team = some 1 := rfl
    have hhg : g01.home_goals = some 1 := rfl
    have hag : g01.away_goals = some 0 := rfl
    have hk : p1600.k_factor = none := rfl
    have hm : p1600.mov_multiplier = none := rfl
    simp [update_ratings, hht, haw, hhg, hag, hA, hE, base_rating, getR,
      calculate_mov_multiplier, hk, hm, setR]
    norm_num

/-- C1 (amended): a team absent from the Rating Store is defaulted to the
hard-coded constant `1500` — the same value on the update path
(`update_ratings`) and on the prediction path (`predict_winner`,
`predict_goals`), all three of which read ratings through `base_rating` —
and this default agrees with the configured `initial_rating` baseline
exactly when that option is unset or set to `1500`. -/
theorem unseen_team_defaults_to_1500 (p : Params) (s : Store) (t : Team)
    (h : getR s t = none) :
    base_rating s t = 1500 ∧
    (p.initial_rating = none ∨ p.initial_rating = some 1500 →
      base_rating s t = p.initial_rating.getD 1500) := by
  refine ⟨by simp [base_rating, h], ?_⟩
  rintro (h1 | h1) <;> simp [base_rating, h, h1]

/-- Witness for the amended C1 at the empty store and empty configuration. -/
theorem unseen_team_defaults_to_1500_witness :
    base_rating [] 0 = 1500 ∧
    (defaultParams.initial_rating = none ∨ defaultParams.initial_rating = some 1500 →
      base_rating [] 0 = defaultParams.initial_rating.getD 1500) :=
  unseen_team_defaults_to_1500 defaultParams [] 0 rfl

/-! ## C2 -/

/-- C2 counterexample: for a match whose away travel is supplied only through
the legacy `travel_distance` field, the update engine applies the travel
penalty but the effective predictor (which reads only `away_travel_dist`,
defaulting to `0`) does not, so the two home-expected values differ. -/
theorem predictor_home_expected_differs_from_engine :
    predictor_home_expected defaultParams [] 0 1 gTravel = 1 / 2 ∧
    engine_home_expected defaultParams [] 0 1 gTravel ≠
      predictor_home_expected defaultParams [] 0 1 gTravel := by
  have hp : predictor_home_expected defaultParams [] 0 1 gTravel = 1 / 2 := by
    simp [predictor_home_expected, base_rating, getR, adjust_for_context, defaultParams, gTravel]
    norm_num [expected_score_self]
  have heq : engine_home_expected defaultParams [] 0 1 gTravel =
      calculate_expected_score 1500 1485 := by
    simp [engine_home_expected, base_rating, getR, adjust_for_context, defaultParams, gTravel]
    norm_num
  refine ⟨hp, ?_⟩
  rw [hp, heq]
  exact ne_of_gt (expected_score_half_lt 1500 1485 (by norm_num))

/-- C2 (amended): the effective predictor computes `home_expected` by steps
1-4 of the update recurrence, but reads the away travel distance only from
`away_travel_dist` (default `0`, without the `travel_distance` fallback) and
the injury counts only from `home_injuries`/`away_injuries` (default `0`,
without the shared `injuries` fallback); its `home_expected` therefore equals
the update engine's value exactly for those matches on which the legacy
fallback fields make no difference — in particular whenever `away_travel_dist`
is present or `travel_distance` is absent or zero, and analogously for the
injury fields. -/
theorem predictor_matches_engine_without_legacy_fields (p : Params) (s : Store)
    (home_team away_team : Team) (g : Game)
    (h1 : g.away_travel_dist.isSome = true ∨ g.travel_distance = none ∨ g.travel_distance = some 0)
    (h2 : g.home_injuries.isSome = true ∨ g.injuries = none ∨ g.injuries = some 0)
    (h3 : g.away_injuries.isSome = true ∨ g.injuries = none ∨ g.injuries = some 0) :
    predictor_home_expected p s home_team away_team g =
      engine_home_expected p s home_team away_team g := by
  have e1 : g.away_travel_dist.getD 0 = g.away_travel_dist.getD (g.travel_distance.getD 0) := by
    rcases h1 with h | h | h
    · obtain ⟨v, hv⟩ := Option.isSome_iff_exists.mp h
      simp [hv]
    · simp [h]
    · simp [h]
  have e2 : g.home_injuries.getD 0 = g.home_injuries.getD (g.injuries.getD 0) := by
    rcases h2 with h | h | h
    · obtain ⟨v, hv⟩ := Option.isSome_iff_exists.mp h
      simp [hv]
    · simp [h]
    · simp [h]
  have e3 : g.away_injuries.getD 0 = g.away_injuries.getD (g.injuries.getD 0) := by
    rcases h3 with h | h | h
    · obtain ⟨v, hv⟩ := Option.isSome_iff_exists.mp h
      simp [hv]
    · simp [h]
    · simp [h]
  unfold predictor_home_expected engine_home_expected
  rw [e1, e2, e3]

/-- Witness for the amended C2: a match that carries its travel distance in
`away_travel_dist` and has no legacy fields. -/
theorem predictor_matches_engine_witness :
    predictor_home_expected defaultParams [] 0 1 gAway =
      engine_home_expected defaultParams [] 0 1 gAway :=
  predictor_matches_engine_without_legacy_fields defaultParams [] 0 1 gAway
    (Or.inl rfl) (Or.inr (Or.inl rfl)) (Or.inr (Or.inl rfl))

/-! ## C9 -/

/-- C9: whenever both teams are present in the match record, `predict_winner`
returns a side together with a probability of at least `0.5`: the home team
with its win probability when that probability exceeds `0.5`, and otherwise
the away team with the complementary probability, which is then at least
`0.5`; in either case the returned probability is the returned side's win
probability. -/
theorem predict_winner_prob_ge_half (p : Params) (s : Store) (g : Game)
    (home_team away_team : Team)
    (hht : g.home_team = some home_team) (haw : g.away_team = some away_team) :
    ∃ r, predict_winner p s g = some r ∧ (0.5 : ℝ) ≤ r.2 ∧
      (((0.5 : ℝ) < predictor_home_expected p s home_team away_team g ∧
          r = (home_team, predictor_home_expected p s home_team away_team g)) ∨
        (predictor_home_expected p s home_team away_team g ≤ (0.5 : ℝ) ∧
          r = (away_team, 1 - predictor_home_expected p s home_team away_team g))) := by
  by_cases hc : (0.5 : ℝ) < predictor_home_expected p s home_team away_team g
  · exact ⟨_, by simp [predict_winner, hht, haw, hc], le_of_lt hc, Or.inl ⟨hc, rfl⟩⟩
  · push_neg at hc
    refine ⟨_, by simp [predict_winner, hht, haw, not_lt.mpr hc], ?_, Or.inr ⟨hc, rfl⟩⟩
    show (0.5 : ℝ) ≤ 1 - predictor_home_expected p s home_team away_team g
    norm_num at hc ⊢
    linarith

/-- Witness for C9: with an empty store and empty configuration the two
defaulted sides are tied, so the away team is returned with probability
exactly one half. -/
theorem predict_winner_prob_ge_half_witness :
    ∃ r, predict_winner defaultParams [] g01 = some r ∧ (0.5 : ℝ) ≤ r.2 ∧
      (((0.5 : ℝ) < predictor_home_expected defaultParams [] 0 1 g01 ∧
          r = (0, predictor_home_expected defaultParams [] 0 1 g01)) ∨
        (predictor_home_expected defaultParams [] 0 1 g01 ≤ (0.5 : ℝ) ∧
          r = (1, 1 - predictor_home_expected defaultParams [] 0 1 g01))) :=
  predict_winner_prob_ge_half defaultParams [] g01 0 1 rfl rfl

/-! ## C4 -/

/-- C4: a match record missing a mandatory field (a team identifier or a
goal count) is rejected: `update_ratings` aborts with the `KeyError` result
`none` — so no rating is written and no history record is appended — and the
training loop surfaces the failure to the caller instead of continuing. -/
theorem missing_mandatory_field_rejected (p : Params) (s : Store)
    (hist : List HistoryRecord) (g : Game) (rest : List Game)
    (h : g.home_team = none ∨ g.away_team = none ∨ g.home_goals = none ∨ g.away_goals = none) :
    update_ratings p s hist g = none ∧ update_loop p (s, hist) (g :: rest) = none := by
  have h1 : update_ratings p s hist g = none := by
    rcases h with h | h | h | h
    · simp [update_ratings, h]
    · cases hht : g.home_team <;> simp [update_ratings, h, hht]
    · cases hht : g.home_team <;> cases haw : g.away_team <;>
        cases hoc : g.home_outcome <;> cases hw : g.home_win <;>
        simp [update_ratings, home_actual_of, h, hht, haw, hoc, hw]
    · cases hht : g.home_team <;> cases haw : g.away_team <;>
        cases hoc : g.home_outcome <;> cases hw : g.home_win <;>
        cases hhg : g.home_goals <;>
        simp [update_ratings, home_actual_of, h, hht, haw, hoc, hw, hhg]
  exact ⟨h1, by simp [update_loop, h1]⟩

/-- Witness for C4: a concrete record lacking `home_team` is rejected and
aborts the training loop. -/
theorem missing_mandatory_field_rejected_witness :
    update_ratings defaultParams [] [] gNoHome = none ∧
    update_loop defaultParams ([], []) (gNoHome :: []) = none :=
  missing_mandatory_field_rejected defaultParams [] [] gNoHome [] (Or.inl rfl)

/-! ## C10 -/

/-- C10: `get_rankings` returns all `(team, rating)` pairs of the store
sorted by rating in descending order; a positive `top_n = n` truncates the
list to its first `n` entries, while `top_n = 0` (falsy in Python, like
`None`) returns the full untruncated list. -/
theorem get_rankings_spec (s : Store) (n : ℕ) (hn : 0 < n) :
    (get_rankings s none).Perm s ∧
    List.Sorted (fun x y : Team × ℝ => y.2 ≤ x.2) (get_rankings s none) ∧
    get_rankings s (some 0) = get_rankings s none ∧
    get_rankings s (some n) = (get_rankings s none).take n := by
  have htrans : ∀ a b c : Team × ℝ, (fun x y : Team × ℝ => decide (y.2 ≤ x.2)) a b = true →
      (fun x y : Team × ℝ => decide (y.2 ≤ x.2)) b c = true →
      (fun x y : Team × ℝ => decide (y.2 ≤ x.2)) a c = true := by
    intro a b c hab hbc
    simp only [decide_eq_true_eq] at hab hbc ⊢
    exact le_trans hbc hab
  have htotal : ∀ a b : Team × ℝ, ((fun x y : Team × ℝ => decide (y.2 ≤ x.2)) a b ||
      (fun x y : Team × ℝ => decide (y.2 ≤ x.2)) b a) = true := by
    intro a b
    simpa using le_total b.2 a.2
  have hn' : n ≠ 0 := Nat.pos_iff_ne_zero.mp hn
  refine ⟨?_, ?_, ?_, ?_⟩
  · simp only [get_rankings]
    exact List.mergeSort_perm s fun x y => decide (y.2 ≤ x.2)
  · have hp := List.sorted_mergeSort htrans htotal s
    simp only [get_rankings]
    exact hp.imp fun h => of_decide_eq_true h
  · simp [get_rankings]
  · simp [get_rankings, hn']

/-- Witness for C10 on a concrete two-team store with `top_n = 1`. -/
theorem get_rankings_spec_witness :
    (get_rankings sRank none).Perm sRank ∧
    List.Sorted (fun x y : Team × ℝ => y.2 ≤ x.2) (get_rankings sRank none) ∧
    get_rankings sRank (some 0) = get_rankings sRank none ∧
    get_rankings sRank (some 1) = (get_rankings sRank none).take 1 :=
  get_rankings_spec sRank 1 (by norm_num)

/-! ## C8 -/

/-- Collection loop of `evaluate` on a sequence of well-formed matches whose
observed home goals all equal `c`: it succeeds and gathers exactly one
prediction and the constant observation per match. -/
theorem eval_collect_const (p : Params) (s : Store) (c : ℤ) :
    ∀ games : List Game,
      (∀ g ∈ games, g.home_team.isSome = true ∧ g.away_team.isSome = true) →
      (∀ g ∈ games, g.home_goals = some c) →
      ∃ preds : List ℝ, eval_collect p s games = some (preds, List.replicate games.length c) ∧
        preds.length = games.length := by
  intro games
  induction games with
  | nil => exact fun _ _ => ⟨[], rfl, rfl⟩
  | cons g rest ih =>
    intro hteams hgoals
    obtain ⟨hht, haw⟩ := hteams g (List.mem_cons_self g rest)
    obtain ⟨ht, hht2⟩ := Option.isSome_iff_exists.mp hht
    obtain ⟨aw, haw2⟩ := Option.isSome_iff_exists.mp haw
    have hhg := hgoals g (List.mem_cons_self g rest)
    obtain ⟨preds, hcol, hlen⟩ := ih (fun g2 hg2 => hteams g2 (List.mem_cons_of_mem g hg2))
      (fun g2 hg2 => hgoals g2 (List.mem_cons_of_mem g hg2))
    refine ⟨(3.0 + (predictor_home_expected p s ht aw g - 0.5) * 12 / 2) :: preds, ?_,
      by simp [hlen]⟩
    simp [eval_collect, predict_goals, hht2, haw2, hhg, hcol, List.replicate_succ]

/-- C8: on every non-empty evaluation sequence of well-formed matches whose
observed home goals are all identical (zero variance), `evaluate` succeeds —
reporting RMSE and MAE as usual — and reports `r2 = 0.0` rather than an
error or an undefined ratio. -/
theorem evaluate_zero_variance (p : Params) (s : Store) (games : List Game) (c : ℤ)
    (hne : games ≠ [])
    (hteams : ∀ g ∈ games, g.home_team.isSome = true ∧ g.away_team.isSome = true)
    (hgoals : ∀ g ∈ games, g.home_goals = some c) :
    ∃ m, evaluate p s games = some m ∧ m.r2 = 0 := by
  obtain ⟨preds, hcol, hlen⟩ := eval_collect_const p s c games hteams hgoals
  have hlen0 : games.length ≠ 0 := by
    simpa [List.length_eq_zero] using hne
  obtain ⟨k, hk⟩ := Nat.exists_eq_succ_of_ne_zero hlen0
  have hrep : (List.replicate games.length c).isEmpty = false := by
    rw [hk]
    rfl
  have hded : (List.replicate games.length c).dedup = [c] := List.replicate_dedup hlen0
  refine ⟨⟨rmse_of (List.replicate games.length c) preds,
    mae_of (List.replicate games.length c) preds, 0.0⟩, ?_, by norm_num⟩
  simp [evaluate, hcol, hrep, hded, hne]

/-- Witness for C8: a single match with three observed home goals evaluates
to metrics whose coefficient of determination is zero. -/
theorem evaluate_zero_variance_witness :
    ∃ m, evaluate defaultParams [] (gGoal3 :: []) = some m ∧ m.r2 = 0 :=
  evaluate_zero_variance defaultParams [] (gGoal3 :: []) 3 (by simp)
    (by intro g hg; rw [List.mem_singleton] at hg; subst hg; exact ⟨rfl, rfl⟩)
    (by intro g hg; rw [List.mem_singleton] at hg; subst hg; rfl)

/-! ## C3 -/

/-- Overwriting a key makes it the key's current value. -/
theorem getR_setR_self (s : Store) (t : Team) (v : ℝ) : getR (setR s t v) t = some v := by
  induction s with
  | nil => simp [setR, getR]
  | cons a rest ih =>
    by_cases h : a.1 = t
    · simp [setR, getR, h]
    · simp [setR, getR, h, ih]

/-- Overwriting one key leaves every other key's value unchanged. -/
theorem getR_setR_ne (s : Store) (t u : Team) (v : ℝ) (h : t ≠ u) :
    getR (setR s t v) u = getR s u := by
  induction s with
  | nil => simp [setR, getR, h]
  | cons a rest ih =>
    by_cases ha : a.1 = t
    · simp [setR, getR, ha, h]
    · simp [setR, getR, ha, ih]

/-- Overwriting a present key shifts the store sum by the value difference. -/
theorem storeSum_setR (s : Store) (t : Team) (v w : ℝ) (hw : getR s t = some w) :
    storeSum (setR s t v) = storeSum s - w + v := by
  induction s with
  | nil => simp [getR] at hw
  | cons a rest ih =>
    by_cases ha : a.1 = t
    · simp [getR, ha] at hw
      simp [setR, ha, storeSum]
      rw [← hw]
      ring
    · simp [getR, ha] at hw
      simp [setR, ha, storeSum] at ih ⊢
      rw [ih hw]
      ring

/-- With all mandatory fields present and the outcome dispatch resolved to
`A`, `update_ratings` runs to completion and returns exactly the two store
writes and the history append of the source. -/
theorem update_ratings_run (p : Params) (s : Store) (hist : List HistoryRecord) (g : Game)
    (home_team away_team : Team) (hg ag : ℤ) (A : ℝ)
    (hht : g.home_team = some home_team) (haw : g.away_team = some away_team)
    (hhg : g.home_goals = some hg) (hag : g.away_goals = some ag)
    (hA : home_actual_of p g = some A) :
    update_ratings p s hist g =
      (let s2 := setR
        (setR s home_team (base_rating s home_team +
          p.k_factor.getD 32 * calculate_mov_multiplier p (hg - ag) *
            (A - engine_home_expected p s home_team away_team g)))
        away_team (base_rating s away_team +
          p.k_factor.getD 32 * calculate_mov_multiplier p (hg - ag) *
            ((1 - A) - (1 - engine_home_expected p s home_team away_team g)))
      some (s2, hist ++ [⟨home_team, away_team, (getR s2 home_team).getD 0,
        (getR s2 away_team).getD 0⟩])) := by
  simp [update_ratings, hht, haw, hhg, hag, hA]

/-- The outcome dispatch always resolves when both goal counts are present. -/
theorem home_actual_of_isSome (p : Params) (g : Game) (hg ag : ℤ)
    (hhg : g.home_goals = some hg) (hag : g.away_goals = some ag) :
    ∃ A, home_actual_of p g = some A := by
  cases hoc : g.home_outcome with
  | some oc => exact ⟨get_actual_score p oc, by simp [home_actual_of, hoc]⟩
  | none =>
    cases hw : g.home_win with
    | some b => exact ⟨if b = true then 1.0 else 0.0, by simp [home_actual_of, hoc, hw]⟩
    | none => exact ⟨if ag < hg then 1.0 else 0.0, by simp [home_actual_of, hoc, hw, hhg, hag]⟩

/-- One update on a store containing both (distinct) teams: it succeeds, the
home rating gains `K * (actual - expected)`, the away rating loses exactly
the same quantity, the total of all stored ratings is unchanged, and the set
of stored teams is unchanged. -/
theorem update_ratings_ok (p : Params) (s : Store) (hist : List HistoryRecord) (g : Game)
    (home_team away_team : Team) (hg ag : ℤ) (h0 a0 : ℝ)
    (hht : g.home_team = some home_team) (haw : g.away_team = some away_team)
    (hhg : g.home_goals = some hg) (hag : g.away_goals = some ag)
    (hh0 : getR s home_team = some h0) (ha0 : getR s away_team = some a0)
    (hne : home_team ≠ away_team) :
    ∃ st, update_ratings p s hist g = some st ∧
      storeSum st.1 = storeSum s ∧
      getR st.1 home_team = some (h0 +
        p.k_factor.getD 32 * calculate_mov_multiplier p (hg - ag) *
          ((home_actual_of p g).getD 0 - engine_home_expected p s home_team away_team g)) ∧
      getR st.1 away_team = some (a0 -
        p.k_factor.getD 32 * calculate_mov_multiplier p (hg - ag) *
          ((home_actual_of p g).getD 0 - engine_home_expected p s home_team away_team g)) ∧
      ∀ u, (getR st.1 u).isSome = (getR s u).isSome := by
  obtain ⟨A, hA⟩ := home_actual_of_isSome p g hg ag hhg hag
  have hAg : (home_actual_of p g).getD 0 = A := by rw [hA]; rfl
  have hbh : base_rating s home_team = h0 := by simp [base_rating, hh0]
  have hba : base_rating s away_team = a0 := by simp [base_rating, ha0]
  have hrun := update_ratings_run p s hist g home_team away_team hg ag A hht haw hhg hag hA
  refine ⟨_, hrun, ?_, ?_, ?_, ?_⟩
  · show storeSum (setR (setR s home_team _) away_team _) = storeSum s
    have h1 : getR (setR s home_team (base_rating s home_team +
        p.k_factor.getD 32 * calculate_mov_multiplier p (hg - ag) *
          (A - engine_home_expected p s home_team away_team g))) away_team = some a0 := by
      rw [getR_setR_ne _ _ _ _ hne]
      exact ha0
    rw [storeSum_setR _ _ _ _ h1, storeSum_setR _ _ _ _ hh0, hbh, hba]
    ring
  · show getR (setR (setR s home_team _) away_team _) home_team = _
    rw [getR_setR_ne _ _ _ _ (Ne.symm hne), getR_setR_self, hbh, hAg]
  · show getR (setR (setR s home_team _) away_team _) away_team = _
    rw [getR_setR_self, hba, hAg]
    congr 1
    ring
  · intro u
    show (getR (setR (setR s home_team _) away_team _) u).isSome = _
    by_cases h1 : away_team = u
    · subst h1
      rw [getR_setR_self, ha0]
      rfl
    · rw [getR_setR_ne _ _ _ _ h1]
      by_cases h2 : home_team = u
      · subst h2
        rw [getR_setR_self, hh0]
        rfl
      · rw [getR_setR_ne _ _ _ _ h2]

/-- The training loop over matches that are all seeded in the original store
`s` succeeds on any store with the same team set and preserves its rating
sum and team set. -/
theorem update_loop_sum (p : Params) (s : Store) :
    ∀ (games : List Game) (s2 : Store) (hist : List HistoryRecord),
      (∀ u, (getR s2 u).isSome = (getR s u).isSome) →
      (∀ g ∈ games, seeded_game s g) →
      ∃ res, update_loop p (s2, hist) games = some res ∧ storeSum res.1 = storeSum s2 ∧
        ∀ u, (getR res.1 u).isSome = (getR s u).isSome := by
  intro games
  induction games with
  | nil => exact fun s2 hist hdom _ => ⟨(s2, hist), rfl, rfl, hdom⟩
  | cons g rest ih =>
    intro s2 hist hdom hgs
    obtain ⟨ht, aw, hg, ag, hht, haw, hhg, hag, hsh, hsa, hne⟩ :=
      hgs g (List.mem_cons_self g rest)
    obtain ⟨h0, hh0⟩ := Option.isSome_iff_exists.mp (by rw [hdom ht]; exact hsh)
    obtain ⟨a0, ha0⟩ := Option.isSome_iff_exists.mp (by rw [hdom aw]; exact hsa)
    obtain ⟨⟨s3, hist3⟩, hupd, hsum, _, _, hdom2⟩ :=
      update_ratings_ok p s2 hist g ht aw hg ag h0 a0 hht haw hhg hag hh0 ha0 hne
    obtain ⟨res, hloop, hsum2, hdom3⟩ := ih s3 hist3
      (fun u => (hdom2 u).trans (hdom u))
      (fun g2 hg2 => hgs g2 (List.mem_cons_of_mem g hg2))
    refine ⟨res, ?_, by rw [hsum2, hsum], hdom3⟩
    simp [update_loop, hupd, hloop]

/-- C3: for a match between two distinct teams present in the store, the two
raw stored ratings change by equal-and-opposite amounts — the home side
gains `K * (home_actual - home_expected)` for the effective
`K = k_factor * movMultiplier` and the away side loses the same quantity —
so each update leaves the sum of all stored ratings unchanged, and the sum
is therefore invariant across the training loop over any sequence of such
matches. -/
theorem update_equal_opposite_preserves_sum (p : Params) (s : Store)
    (hist : List HistoryRecord) (g : Game) (home_team away_team : Team) (hg ag : ℤ)
    (h0 a0 : ℝ) (games : List Game)
    (hht : g.home_team = some home_team) (haw : g.away_team = some away_team)
    (hhg : g.home_goals = some hg) (hag : g.away_goals = some ag)
    (hh0 : getR s home_team = some h0) (ha0 : getR s away_team = some a0)
    (hne : home_team ≠ away_team)
    (hgames : ∀ g2 ∈ games, seeded_game s g2) :
    (∃ st, update_ratings p s hist g = some st ∧
      getR st.1 home_team = some (h0 +
        p.k_factor.getD 32 * calculate_mov_multiplier p (hg - ag) *
          ((home_actual_of p g).getD 0 - engine_home_expected p s home_team away_team g)) ∧
      getR st.1 away_team = some (a0 -
        p.k_factor.getD 32 * calculate_mov_multiplier p (hg - ag) *
          ((home_actual_of p g).getD 0 - engine_home_expected p s home_team away_team g)) ∧
      storeSum st.1 = storeSum s) ∧
    (∃ res, update_loop p (s, hist) games = some res ∧ storeSum res.1 = storeSum s) := by
  obtain ⟨st, h1, h2, h3, h4, _⟩ :=
    update_ratings_ok p s hist g home_team away_team hg ag h0 a0 hht haw hhg hag hh0 ha0 hne
  obtain ⟨res, hl, hs, _⟩ := update_loop_sum p s games s hist (fun _ => rfl) hgames
  exact ⟨⟨st, h1, h3, h4, h2⟩, res, hl, hs⟩

/-- Witness for C3 on the concrete two-team store, one decided match and a
one-match training sequence. -/
theorem update_equal_opposite_preserves_sum_witness :
    (∃ st, update_ratings defaultParams s2teams [] g01 = some st ∧
      getR st.1 0 = some (1500 +
        defaultParams.k_factor.getD 32 * calculate_mov_multiplier defaultParams (1 - 0) *
          ((home_actual_of defaultParams g01).getD 0 -
            engine_home_expected defaultParams s2teams 0 1 g01)) ∧
      getR st.1 1 = some (1500 -
        defaultParams.k_factor.getD 32 * calculate_mov_multiplier defaultParams (1 - 0) *
          ((home_actual_of defaultParams g01).getD 0 -
            engine_home_expected defaultParams s2teams 0 1 g01)) ∧
      storeSum st.1 = storeSum s2teams) ∧
    (∃ res, update_loop defaultParams (s2teams, []) (g01 :: []) = some res ∧
      storeSum res.1 = storeSum s2teams) :=
  update_equal_opposite_preserves_sum defaultParams s2teams [] g01 0 1 1 0 1500 1500
    (g01 :: []) rfl rfl rfl rfl rfl rfl (by decide)
    (by
      intro g2 hg2
      rw [List.mem_singleton] at hg2
      subst hg2
      exact ⟨0, 1, 1, 0, rfl, rfl, rfl, rfl, rfl, rfl, by decide⟩)
